import Mathlib

/-!
Verification of the experiment control loop of the `policy-params`
repository (`src/experiment.py`).

The development shallowly embeds the `Experiment` class: the environment
and agent are abstract deterministic machines with hidden state, wall
clock readings are drawn from an abstract clock stream `Nat → Int`, and
every `while` loop is embedded as a fuel-indexed recursion returning
`Option` (`none` means the fuel ran out before the loop exited; Python
loops that can diverge correspond exactly to runs needing unbounded
fuel).  Rewards and times are modelled as integers.
-/

namespace PolicyParams

/-! ## Done mask (`run_episode_train`, experiment.py lines 263-272) -/

/-- The done-mask computation of `run_episode_train`:
`if steps_per_episode <= 1: done_mask = 0
 else: done_mask = 0 if (episode_steps <= steps_per_episode and done and
 not steps_exceeded) else 1`. -/
def done_mask (steps_per_episode : Int) (episode_steps : Nat)
    (done steps_exceeded : Bool) : Nat :=
  if steps_per_episode ≤ 1 then 0
  else if (episode_steps : Int) ≤ steps_per_episode ∧ done = true ∧
      steps_exceeded = false then 0
  else 1

/-- The done-mask policy as worded by the specification: for
single-step-episode environments the mask is always `0`; otherwise the
mask is `0` exactly on true terminals (`done` at or before the step
limit and not flagged as a step-limit truncation) and `1` in every other
case. -/
def done_mask_of_spec (steps_per_episode : Int) (episode_steps : Nat)
    (done steps_exceeded : Bool) : Nat :=
  if steps_per_episode ≤ 1 then 0
  else if done = true ∧ (episode_steps : Int) ≤ steps_per_episode ∧
      steps_exceeded = false then 0
  else 1

/-! ## Checkpoint bucket (`save_data`, experiment.py line 457) -/

/-- `save_step = step // self.steps_to_save * self.steps_to_save`. -/
def checkpoint_bucket (step interval : Nat) : Nat :=
  step / interval * interval

/-! ## Dictionaries and the checkpoint writer (`save_data`) -/

/-- Python dictionaries are modelled as association lists with
first-match lookup. -/
def aLookup {K V : Type} [DecidableEq K] : List (K × V) → K → Option V
  | [], _ => none
  | (k', v) :: rest, k => if k' = k then some v else aLookup rest k

abbrev Dict (V : Type) : Type := List (String × V)

def dLookup {V : Type} (d : Dict V) (k : String) : Option V :=
  aLookup d k

/-- Python `{**a, **b}`: on a key collision the later mapping `b` wins.
With first-match lookup, listing `b`'s bindings first gives exactly that
override semantics. -/
def dMerge {V : Type} (a b : Dict V) : Dict V :=
  b ++ a

/-- Python `d[k] = v`. -/
def dInsert {V : Type} (d : Dict V) (k : String) (v : V) : Dict V :=
  dMerge d [(k, v)]

/-- The value stored under a sweep key of the results container:
`data["experiment_data"][hp_sweep]` is a dictionary holding the list of
run records under `"runs"`. -/
structure SweepEntry (V : Type) where
  runs : List (Dict V)

/-- The in-memory results container: `data["experiment_data"]` maps each
hyperparameter-sweep identifier to its entry. -/
structure Results (V : Type) where
  experiment_data : List (String × SweepEntry V)

/-- `data["experiment_data"][hp_sweep]["runs"].append(run_data)`. -/
def appendRun {V : Type} (res : Results V) (sweep : String)
    (r : Dict V) : Results V :=
  { experiment_data :=
      res.experiment_data.map (fun p =>
        if p.1 = sweep then (p.1, ⟨p.2.runs ++ [r]⟩) else p) }

/-- The on-disk location of a checkpoint file, determined by the save
directory, the numeric checkpoint bucket, the environment name, the
agent name and the run index (experiment.py lines 457-462). -/
structure SavePath where
  save_dir : String
  bucket : Nat
  env_name : String
  agent_name : String
  index : Nat
deriving DecidableEq

/-- A filesystem snapshot: most recent write first, so `aLookup` returns
the last content written to a path (Python `open(file, "wb")`
overwrites). -/
def fsWrite {V : Type} (fs : List (SavePath × Results V))
    (p : SavePath) (d : Results V) : List (SavePath × Results V) :=
  (p, d) :: fs

/-- The fields `save_data` reads from `self.save_cache`. -/
structure SaveCache (V : Type) where
  run_data : Dict V
  data : Results V
  hp_sweep : String
  save_dir : String
  env_name : String
  agent_name : String
  index : Nat

/-- The merged run record built by `save_data`:
`run_data["learned_params"] = self.agent.get_parameters()` followed by
`run_data = {**run_data, **self.agent.info, **self.info, **self.env.info}`
(experiment.py lines 440-443). -/
def merged_run_data {V : Type} (cache : SaveCache V) (agent_params : V)
    (agent_info ctrl_info env_info : Dict V) : Dict V :=
  dMerge (dMerge (dMerge (dInsert cache.run_data "learned_params" agent_params)
    agent_info) ctrl_info) env_info

/-- `save_data(step)` (experiment.py lines 428-468): deep-copies the
cached results container, appends the merged run record under the sweep
key, computes the checkpoint bucket and writes the whole container to
the bucket's file.  Deep copies are implicit since Lean values are
immutable; directory creation has no observable effect in the model. -/
def save_data {V : Type} (cache : SaveCache V) (agent_params : V)
    (agent_info ctrl_info env_info : Dict V) (steps_to_save : Nat)
    (step : Nat) (fs : List (SavePath × Results V)) :
    List (SavePath × Results V) :=
  let run_data := merged_run_data cache agent_params agent_info ctrl_info
    env_info
  let data := appendRun cache.data cache.hp_sweep run_data
  let save_step := checkpoint_bucket step steps_to_save
  let path : SavePath :=
    ⟨cache.save_dir, save_step, cache.env_name, cache.agent_name, cache.index⟩
  fsWrite fs path data

/-- The number of run records stored under a sweep key. -/
def runCount {V : Type} (d : Results V) (sweep : String) : Nat :=
  match aLookup d.experiment_data sweep with
  | some e => e.runs.length
  | none => 0

/-- Reads back the number of run records stored for a sweep key in the
file persisted at a path. -/
def readRunCount {V : Type} (fs : List (SavePath × Results V))
    (p : SavePath) (sweep : String) : Option Nat :=
  (aLookup fs p).map (fun d => runCount d sweep)

/-! ## The run controller (`Experiment.run` and its sub-routines)

The environment and agent are abstract deterministic machines: `E`/`EE`
are the hidden states of the training and evaluation environments, `G`
the hidden agent state, `S` observed states, `A` actions.  Methods that
may mutate internal state (`reset`, `step`, `sample_action`, `update`,
mode switches) are state-passing functions. -/

/-- The tuple returned by `env.step(action)`; the `info` dictionary is
represented by its only consumed entry, `info["steps_exceeded"]`. -/
structure EnvStep (S : Type) where
  next_state : S
  reward : Int
  done : Bool
  steps_exceeded : Bool

structure Env (E S A : Type) where
  reset : E → E × S
  step : E → A → E × EnvStep S
  steps_per_episode : Int

/-- The agent capability surface consumed by the controller.  `eval` and
`train` are the mode switches; `reset_q1_mean` models the controller's
direct write `self.agent.q1_mean_per_episode = []`; `eval_steps` is the
optional capability probed with `getattr(self.agent, "eval_steps", None)`. -/
structure Agent (G S A : Type) where
  sample_action : G → S → G × A
  update : G → S → A → Int → S → Nat → G
  reset : G → G
  eval : G → G
  train : G → G
  reset_q1_mean : G → G
  eval_steps : Option Nat

/-- The construction parameters used by the training/evaluation
routines, plus the abstract wall clock: successive `time.time()` calls
read successive entries of `clock`. -/
structure Config (E EE G S A : Type) where
  env : Env E S A
  eval_env : Env EE S A
  agent : Agent G S A
  eval_episodes : Nat
  total_timesteps : Nat
  eval_interval_timesteps : Nat
  clock : Nat → Int

/-- The parameters consumed only by the top-level `run` loop.  Keeping
them outside `Config` mirrors the fact that `run_episode_train` and
`eval` never read `max_episodes` or `steps_to_save`. -/
structure RunConfig (E EE G S A : Type) where
  cfg : Config E EE G S A
  max_episodes : Int
  steps_to_save : Nat

/-- The mutable state of the `Experiment` instance.  `agent_eval_state`
is the duck-typed list `self.agent.info["eval_state"]` appended to by
the state-collection pass; `clockIdx` is the position in the abstract
clock stream. -/
structure RunState (E EE G S : Type) where
  envSt : E
  evalEnvSt : EE
  agentSt : G
  agent_eval_state : List (List S)
  timesteps_since_last_eval : Nat
  timesteps_elapsed : Nat
  train_episodes : Nat
  train_ep_return : List Int
  train_ep_steps : List Nat
  timesteps_at_eval : List Nat
  eval_ep_return : List (List Int)
  eval_ep_steps : List (List Nat)
  train_time : Int
  eval_time : Int
  last_save : Nat
  clockIdx : Nat

/-- One `time.time()` call: the reading and the advanced stream index. -/
def readTime (clock : Nat → Int) (i : Nat) : Int × Nat :=
  (clock i, i + 1)

/-- The state of the `Experiment.__init__` constructor (monitor toggling
on the evaluation environment has no observable effect here). -/
def initState {E EE G S : Type} (e0 : E) (ee0 : EE) (g0 : G) :
    RunState E EE G S :=
  ⟨e0, ee0, g0, [], 0, 0, 0, [], [], [], [], [], 0, 0, 0, 0⟩

/-- Result of one evaluation episode (`run_episode_eval`). -/
structure EvalEpOut (EE G : Type) where
  ee : EE
  g : G
  ret : Int
  steps : Nat

/-- The `while not done` loop of `run_episode_eval` (experiment.py lines
415-424); entered with `done = False`. -/
def run_episode_eval_go {E EE G S A : Type} (cfg : Config E EE G S A) :
    Nat → EE → G → A → Int → Nat → Option (EvalEpOut EE G)
  | 0, _, _, _, _, _ => none
  | fuel + 1, ee, g, a, ret, steps =>
      let er := cfg.eval_env.step ee a
      let r := er.2
      let ret' := ret + r.reward
      let ga := if r.done then (g, a) else cfg.agent.sample_action g r.next_state
      let steps' := steps + 1
      if r.done then some ⟨er.1, ga.1, ret', steps'⟩
      else run_episode_eval_go cfg fuel er.1 ga.1 ga.2 ret' steps'

/-- `run_episode_eval` (experiment.py lines 397-426). -/
def run_episode_eval {E EE G S A : Type} (cfg : Config E EE G S A)
    (fuel : Nat) (ee : EE) (g : G) : Option (EvalEpOut EE G) :=
  let es := cfg.eval_env.reset ee
  let ga := cfg.agent.sample_action g es.2
  run_episode_eval_go cfg fuel es.1 ga.1 ga.2 0 0

/-- Accumulated result of the `for i in range(self.eval_episodes)` loop
of `eval`. -/
structure EvalEpisodesOut (EE G : Type) where
  ee : EE
  g : G
  clockIdx : Nat
  rets : List Int
  stepCounts : List Nat
  session : Int

/-- The episode-based evaluation loop of `eval` (experiment.py lines
336-353): times each `run_episode_eval` call and accumulates
`eval_session_time`. -/
def eval_episodes_go {E EE G S A : Type} (cfg : Config E EE G S A)
    (fuel : Nat) :
    Nat → EE → G → Nat → List Int → List Nat → Int →
      Option (EvalEpisodesOut EE G)
  | 0, ee, g, ci, rets, stepCounts, session =>
      some ⟨ee, g, ci, rets, stepCounts, session⟩
  | count + 1, ee, g, ci, rets, stepCounts, session =>
      let r0 := readTime cfg.clock ci
      match run_episode_eval cfg fuel ee g with
      | none => none
      | some o =>
          let r1 := readTime cfg.clock r0.2
          eval_episodes_go cfg fuel count o.ee o.g r1.2
            (rets ++ [o.ret]) (stepCounts ++ [o.steps])
            (session + (r1.1 - r0.1))

/-- Accumulator of the step-budgeted state-collection pass. -/
structure PassAcc (EE G S : Type) where
  ee : EE
  g : G
  cur_steps : Nat
  buffer : List S
  recorded : List (List S)

/-- The inner `while not done` loop of the state-collection pass
(experiment.py lines 367-380); entered with `done = False`.  `recorded`
is the list `self.agent.info["eval_state"]`. -/
def collect_inner {E EE G S A : Type} (cfg : Config E EE G S A)
    (n : Nat) :
    Nat → EE → G → A → Nat → List S → List (List S) →
      Option (PassAcc EE G S)
  | 0, _, _, _, _, _, _ => none
  | fuel + 1, ee, g, a, cur, buf, recs =>
      let er := cfg.eval_env.step ee a
      let r := er.2
      let ga := if r.done then (g, a) else cfg.agent.sample_action g r.next_state
      let cur' := cur + 1
      if cur' ≤ n then
        let buf' := buf ++ [r.next_state]
        let recs' := if buf'.length = n then recs ++ [buf'] else recs
        if r.done then some ⟨er.1, ga.1, cur', buf', recs'⟩
        else collect_inner cfg n fuel er.1 ga.1 ga.2 cur' buf' recs'
      else some ⟨er.1, ga.1, cur', buf, recs⟩

/-- The outer `while cur_steps < eval_steps` loop of the state-collection
pass (experiment.py lines 362-380). -/
def collect_outer {E EE G S A : Type} (cfg : Config E EE G S A)
    (n : Nat) :
    Nat → EE → G → Nat → List S → List (List S) →
      Option (PassAcc EE G S)
  | 0, _, _, _, _, _ => none
  | fuel + 1, ee, g, cur, buf, recs =>
      if cur < n then
        let es := cfg.eval_env.reset ee
        let ga := cfg.agent.sample_action g es.2
        let buf' := buf ++ [es.2]
        match collect_inner cfg n fuel es.1 ga.1 ga.2 cur buf' recs with
        | none => none
        | some o => collect_outer cfg n fuel o.ee o.g o.cur_steps o.buffer o.recorded
      else some ⟨ee, g, cur, buf, recs⟩

/-- Result of the timed state-collection pass. -/
structure StatePassOut (EE G S : Type) where
  ee : EE
  g : G
  clockIdx : Nat
  recorded : List (List S)
  passTime : Int

/-- The timed state-collection pass of `eval` (experiment.py lines
356-384): runs `collect_outer` between two clock reads;
`passTime = eval_end_time - eval_start_time` is `additional_eval_time`. -/
def eval_state_pass {E EE G S A : Type} (cfg : Config E EE G S A)
    (n fuel : Nat) (ee : EE) (g : G) (ci : Nat)
    (recs : List (List S)) : Option (StatePassOut EE G S) :=
  let r0 := readTime cfg.clock ci
  match collect_outer cfg n fuel ee g 0 [] recs with
  | none => none
  | some o =>
      let r1 := readTime cfg.clock r0.2
      some ⟨o.ee, o.g, r1.2, o.recorded, r1.1 - r0.1⟩

/-- Result of one `eval` invocation: the new controller state, the
episode-based `eval_session_time` (the value `eval` returns) and the
state-collection pass time (0 when the pass does not run). -/
structure EvalOut (E EE G S : Type) where
  st : RunState E EE G S
  session : Int
  passTime : Int

/-- `eval` (experiment.py lines 313-395), instrumented to also expose
the state-collection pass time. -/
def evalAux {E EE G S A : Type} (cfg : Config E EE G S A) (fuel : Nat)
    (st : RunState E EE G S) : Option (EvalOut E EE G S) :=
  let st := { st with timesteps_since_last_eval := 0,
                      agentSt := cfg.agent.eval st.agentSt }
  match eval_episodes_go cfg fuel cfg.eval_episodes st.evalEnvSt st.agentSt
      st.clockIdx [] [] 0 with
  | none => none
  | some o =>
      let st := { st with evalEnvSt := o.ee, agentSt := o.g,
                          clockIdx := o.clockIdx }
      match cfg.agent.eval_steps with
      | some n =>
          match eval_state_pass cfg n fuel st.evalEnvSt st.agentSt st.clockIdx
              st.agent_eval_state with
          | none => none
          | some po =>
              let st := { st with evalEnvSt := po.ee, agentSt := po.g,
                                  clockIdx := po.clockIdx,
                                  agent_eval_state := po.recorded,
                                  eval_time := st.eval_time + po.passTime }
              let st := { st with
                  eval_ep_return := st.eval_ep_return ++ [o.rets],
                  eval_ep_steps := st.eval_ep_steps ++ [o.stepCounts],
                  eval_time := st.eval_time + o.session,
                  agentSt := cfg.agent.train st.agentSt }
              some ⟨st, o.session, po.passTime⟩
      | none =>
          let st := { st with
              eval_ep_return := st.eval_ep_return ++ [o.rets],
              eval_ep_steps := st.eval_ep_steps ++ [o.stepCounts],
              eval_time := st.eval_time + o.session,
              agentSt := cfg.agent.train st.agentSt }
          some ⟨st, o.session, 0⟩

/-- `eval` as called by the controller: it returns `eval_session_time`
only (experiment.py line 395). -/
def eval {E EE G S A : Type} (cfg : Config E EE G S A) (fuel : Nat)
    (st : RunState E EE G S) : Option (RunState E EE G S × Int) :=
  (evalAux cfg fuel st).map (fun o => (o.st, o.session))

/-- The statement pair `self.eval_time += self.eval()` followed by
`self.timesteps_at_eval.append(self.timesteps_elapsed)`, shared by the
three call sites of `eval` (experiment.py lines 154-156, 243-246,
188-190). -/
def afterEval {E EE G S : Type} (st : RunState E EE G S) (t : Int) :
    RunState E EE G S :=
  { st with eval_time := st.eval_time + t,
            timesteps_at_eval := st.timesteps_at_eval ++ [st.timesteps_elapsed] }

/-- Accumulated result of the training-episode `while not done` loop. -/
structure LoopOut (E EE G S : Type) where
  st : RunState E EE G S
  ret : Int
  steps : Nat
  rewards : List Int

/-- The `while not done` loop of `run_episode_train` (experiment.py
lines 241-300): possibly evaluate mid-episode, step the environment,
compute the done mask, update the agent, advance the counters and break
once the global timestep budget is reached.  `rewards` mirrors the
source's `episode_rewards` list. -/
def train_loop {E EE G S A : Type} (cfg : Config E EE G S A) :
    Nat → RunState E EE G S → S → A → Bool → Int → Nat → List Int →
      Option (LoopOut E EE G S)
  | 0, _, _, _, _, _, _, _ => none
  | fuel + 1, st, state, action, done, ret, steps, rewards =>
      if done then some ⟨st, ret, steps, rewards⟩
      else
        let midEval : Option (RunState E EE G S) :=
          if cfg.eval_interval_timesteps ≤ st.timesteps_since_last_eval then
            match eval cfg fuel st with
            | none => none
            | some p => some (afterEval p.1 p.2)
          else some st
        match midEval with
        | none => none
        | some st =>
            let er := cfg.env.step st.envSt action
            let r := er.2
            let st := { st with envSt := er.1 }
            let steps' := steps + 1
            let rewards' := rewards ++ [r.reward]
            let ret' := ret + r.reward
            let mask := done_mask cfg.env.steps_per_episode steps' r.done
              r.steps_exceeded
            let g' := cfg.agent.update st.agentSt state action r.reward
              r.next_state mask
            let ga := if r.done then (g', action)
              else cfg.agent.sample_action g' r.next_state
            let since' := st.timesteps_since_last_eval + 1
            let st := { st with agentSt := ga.1,
                                timesteps_since_last_eval := since',
                                timesteps_elapsed := st.timesteps_elapsed + 1 }
            if cfg.total_timesteps ≤ st.timesteps_elapsed then
              some ⟨st, ret', steps', rewards'⟩
            else
              train_loop cfg fuel st r.next_state ga.2 r.done ret' steps'
                rewards'

/-- Result of `run_episode_train`: the episode return, step count and
wall time the source returns, plus the state and the per-step reward
list built by the source. -/
structure EpOut (E EE G S : Type) where
  st : RunState E EE G S
  episode_return : Int
  episode_steps : Nat
  ep_time : Int
  rewards : List Int

/-- `run_episode_train` (experiment.py lines 207-309). -/
def run_episode_train {E EE G S A : Type} (cfg : Config E EE G S A)
    (fuel : Nat) (st : RunState E EE G S) : Option (EpOut E EE G S) :=
  let st := { st with
      agentSt := cfg.agent.reset_q1_mean (cfg.agent.reset st.agentSt),
      train_episodes := st.train_episodes + 1 }
  let r0 := readTime cfg.clock st.clockIdx
  let st := { st with clockIdx := r0.2 }
  let es := cfg.env.reset st.envSt
  let ga := cfg.agent.sample_action st.agentSt es.2
  let st := { st with envSt := es.1, agentSt := ga.1 }
  match train_loop cfg fuel st es.2 ga.2 false 0 0 [] with
  | none => none
  | some o =>
      let r1 := readTime cfg.clock o.st.clockIdx
      some ⟨{ o.st with clockIdx := r1.2 }, o.ret, o.steps, r1.1 - r0.1,
        o.rewards⟩

/-- The checkpoint trigger inside `run`'s training loop (experiment.py
lines 173-186): when a checkpoint boundary is crossed the controller
persists via the checkpoint writer (a disk-only effect, modelled
separately by `save_data`) and advances `last_save`. -/
def save_mark {E EE G S : Type} (steps_to_save : Nat)
    (st : RunState E EE G S) : RunState E EE G S :=
  if steps_to_save ≤ st.timesteps_elapsed - st.last_save then
    { st with last_save := st.timesteps_elapsed }
  else st

/-- The training loop of `run` (experiment.py lines 159-186): run
training episodes while the timestep budget is unexhausted and, when a
positive episode cap is configured, the cap is not reached.  On a
checkpoint boundary the controller persists via the checkpoint writer
(a disk-only effect, modelled separately by `save_data`) and advances
`last_save`. -/
def run_loop {E EE G S A : Type} (rc : RunConfig E EE G S A) :
    Nat → RunState E EE G S → Option (RunState E EE G S)
  | 0, _ => none
  | fuel + 1, st =>
      if st.timesteps_elapsed < rc.cfg.total_timesteps ∧
          (0 < rc.max_episodes →
            (st.train_episodes : Int) < rc.max_episodes) then
        match run_episode_train rc.cfg fuel st with
        | none => none
        | some o =>
            let st := { o.st with
                train_ep_return := o.st.train_ep_return ++ [o.episode_return],
                train_ep_steps := o.st.train_ep_steps ++ [o.episode_steps],
                train_time := o.st.train_time + o.ep_time }
            run_loop rc fuel (save_mark rc.steps_to_save st)
      else some st

/-- `run` (experiment.py lines 133-205): bookend evaluation, training
loop, bookend evaluation.  The final refresh of the `self.info` cache
only mirrors fields already present in the state. -/
def run {E EE G S A : Type} (rc : RunConfig E EE G S A) (fuel : Nat)
    (st : RunState E EE G S) : Option (RunState E EE G S) :=
  let st := { st with clockIdx := (readTime rc.cfg.clock st.clockIdx).2 }
  match eval rc.cfg fuel st with
  | none => none
  | some p =>
      let st := afterEval p.1 p.2
      match run_loop rc fuel st with
      | none => none
      | some st =>
          match eval rc.cfg fuel st with
          | none => none
          | some p =>
              let st := afterEval p.1 p.2
              some { st with
                  clockIdx := (readTime rc.cfg.clock st.clockIdx).2 }

/-! ### Basic dictionary lemmas -/

/-! ## Concrete instances used by the witnesses -/

/-- A deterministic environment over unit states and actions whose
hidden state counts steps: every step returns reward 1, reports `done`
and no truncation. -/
def unitEnv : Env Nat Unit Unit :=
  { reset := fun e => (e, ()),
    step := fun e _ => (e + 1, ⟨(), 1, true, false⟩),
    steps_per_episode := 100 }

/-- A stateless agent over unit states and actions. -/
def unitAgent : Agent Unit Unit Unit :=
  { sample_action := fun g _ => (g, ()),
    update := fun g _ _ _ _ _ => g,
    reset := id, eval := id, train := id, reset_q1_mean := id,
    eval_steps := none }

/-- One evaluation episode, budget of 3 timesteps, evaluation interval
never reached mid-episode, clock reading `i` at position `i`. -/
def unitConfig : Config Nat Nat Unit Unit Unit :=
  { env := unitEnv, eval_env := unitEnv, agent := unitAgent,
    eval_episodes := 1, total_timesteps := 3,
    eval_interval_timesteps := 1000000,
    clock := fun i => (i : Int) }

def unitRunConfig : RunConfig Nat Nat Unit Unit Unit :=
  { cfg := unitConfig, max_episodes := -1, steps_to_save := 1000000 }

/-- Episode cap of 2 with an effectively unbounded budget. -/
def capRunConfig : RunConfig Nat Nat Unit Unit Unit :=
  { cfg := { unitConfig with total_timesteps := 1000 }, max_episodes := 2,
    steps_to_save := 1000000 }

/-- The unit agent advertising an `eval_steps` budget of 2. -/
def passAgent : Agent Unit Unit Unit :=
  { unitAgent with eval_steps := some 2 }

def passConfig : Config Nat Nat Unit Unit Unit :=
  { unitConfig with agent := passAgent }

/-- The final state of `run unitRunConfig 20 (initState 0 0 ())`. -/
def unitRunFinal : RunState Nat Nat Unit Unit :=
  ⟨3, 2, (), [], 0, 3, 3, [1, 1, 1], [1, 1, 1], [0, 3], [[1], [1]],
    [[1], [1]], 3, 4, 0, 12⟩

/-- The final state of `run capRunConfig 20 (initState 0 0 ())`. -/
def capRunFinal : RunState Nat Nat Unit Unit :=
  ⟨2, 2, (), [], 0, 2, 2, [1, 1], [1, 1], [0, 2], [[1], [1]], [[1], [1]],
    2, 4, 0, 10⟩

/-- The result of `run_episode_train unitConfig 20 (initState 0 0 ())`. -/
def unitEpOut : EpOut Nat Nat Unit Unit :=
  ⟨⟨1, 0, (), [], 1, 1, 1, [], [], [], [], [], 0, 0, 0, 2⟩, 1, 1, 1, [1]⟩

/-- The result of `evalAux passConfig 20 (initState 0 0 ())`: one timed
evaluation episode (session time 1) followed by the timed
state-collection pass (pass time 1), which records one state buffer of
length 2. -/
def passEvalOut : EvalOut Nat Nat Unit Unit :=
  ⟨⟨0, 3, (), [[(), ()]], 0, 0, 0, [], [], [], [[1]], [[1]], 0, 2, 0, 4⟩,
    1, 1⟩

theorem aLookup_append {K V : Type} [DecidableEq K]
    (a b : List (K × V)) (k : K) :
    aLookup (a ++ b) k =
      match aLookup a k with
      | some v => some v
      | none => aLookup b k := by
  induction a with
  | nil => simp [aLookup]
  | cons p rest ih =>
      by_cases h : p.1 = k
      · simp [aLookup, h]
      · simp [aLookup, h, ih]

theorem dLookup_dMerge_right {V : Type} (a b : Dict V) (k : String)
    (v : V) (h : dLookup b k = some v) :
    dLookup (dMerge a b) k = some v := by
  unfold dLookup dMerge at *
  rw [aLookup_append, h]

theorem dLookup_dMerge_left {V : Type} (a b : Dict V) (k : String)
    (h : dLookup b k = none) :
    dLookup (dMerge a b) k = dLookup a k := by
  unfold dLookup dMerge at *
  rw [aLookup_append, h]

/-! ## Helper lemmas for the checkpoint writer -/

theorem aLookup_cons {K V : Type} [DecidableEq K] (k' k : K) (v : V)
    (rest : List (K × V)) :
    aLookup ((k', v) :: rest) k = if k' = k then some v else aLookup rest k :=
  rfl

theorem aLookup_map_update {K V : Type} [DecidableEq K]
    (l : List (K × V)) (s : K) (f : V → V) :
    aLookup (l.map (fun p => if p.1 = s then (p.1, f p.2) else p)) s =
      (aLookup l s).map f := by
  induction l with
  | nil => rfl
  | cons p rest ih =>
      obtain ⟨k1, v1⟩ := p
      by_cases h : k1 = s
      · subst h
        have h1 : (if ((k1, v1) : K × V).1 = k1
              then (((k1, v1) : K × V).1, f ((k1, v1) : K × V).2)
              else ((k1, v1) : K × V)) = (k1, f v1) := if_pos rfl
        rw [List.map_cons, h1, aLookup_cons, aLookup_cons, if_pos rfl,
          if_pos rfl]
        rfl
      · have h1 : (if ((k1, v1) : K × V).1 = s
              then (((k1, v1) : K × V).1, f ((k1, v1) : K × V).2)
              else ((k1, v1) : K × V)) = (k1, v1) := if_neg h
        rw [List.map_cons, h1, aLookup_cons, aLookup_cons, if_neg h,
          if_neg h, ih]

theorem appendRun_lookup {V : Type} (d : Results V) (s : String)
    (r : Dict V) :
    aLookup (appendRun d s r).experiment_data s =
      (aLookup d.experiment_data s).map (fun e => ⟨e.runs ++ [r]⟩) := by
  unfold appendRun
  exact aLookup_map_update d.experiment_data s (fun e => ⟨e.runs ++ [r]⟩)

/-- Reading the path just written by `save_data` returns the container
it persisted: the cached container with one merged record appended. -/
theorem save_data_read {V : Type} (cache : SaveCache V) (params : V)
    (ai ci ei : Dict V) (interval step : Nat)
    (fs : List (SavePath × Results V)) :
    aLookup (save_data cache params ai ci ei interval step fs)
      ⟨cache.save_dir, checkpoint_bucket step interval, cache.env_name,
        cache.agent_name, cache.index⟩ =
      some (appendRun cache.data cache.hp_sweep
        (merged_run_data cache params ai ci ei)) := by
  unfold save_data fsWrite
  simp [aLookup]

theorem runCount_appendRun {V : Type} (d : Results V) (s : String)
    (r : Dict V) (entry : SweepEntry V)
    (hs : aLookup d.experiment_data s = some entry) :
    runCount (appendRun d s r) s = entry.runs.length + 1 := by
  unfold runCount
  rw [appendRun_lookup, hs]
  simp

/-! ## Claim theorems: pure components -/

/-- C1: for every training transition, the done mask passed to
`agent.update` is `0` whenever `steps_per_episode ≤ 1`; otherwise it is
`0` exactly when the episode terminated at or below the step limit
without the `steps_exceeded` truncation flag, and `1` in every other
case.  `done_mask` is the function `train_loop` passes to
`cfg.agent.update` at every transition; it coincides with the
specification's case analysis `done_mask_of_spec`. -/
theorem C1_done_mask (spe : Int) (steps : Nat) (d x : Bool) :
    done_mask spe steps d x = done_mask_of_spec spe steps d x ∧
    (spe ≤ 1 → done_mask spe steps d x = 0) ∧
    (1 < spe →
      (done_mask spe steps d x = 0 ↔
        d = true ∧ (steps : Int) ≤ spe ∧ x = false) ∧
      (done_mask spe steps d x = 1 ↔
        ¬(d = true ∧ (steps : Int) ≤ spe ∧ x = false))) := by
  unfold done_mask done_mask_of_spec
  by_cases h1 : spe ≤ 1
  · simp [h1]
  · by_cases hd : d = true <;> by_cases hx : x = false <;>
      by_cases hs : (steps : Int) ≤ spe <;>
      simp [h1, hd, hx, hs]

/-- Witness for C1 at the specification's own test vectors. -/
theorem C1_done_mask_witness :
    (1 : Int) < 100 ∧ done_mask 100 100 true false = 0 ∧
      done_mask 100 100 true true = 1 :=
  ⟨by norm_num,
    ((C1_done_mask 100 100 true false).2.2 (by norm_num)).1.mpr
      ⟨rfl, by norm_num, rfl⟩,
    ((C1_done_mask 100 100 true true).2.2 (by norm_num)).2.mpr
      (by simp)⟩

/-- C8: for every non-negative step count and positive checkpoint
interval, the bucket computed by `save_data` is
`floor(step / interval) * interval` and satisfies
`bucket ≤ step < bucket + interval`. -/
theorem C8_checkpoint_bucket (s interval : Nat) (h : 0 < interval) :
    checkpoint_bucket s interval = s / interval * interval ∧
    checkpoint_bucket s interval ≤ s ∧
    s < checkpoint_bucket s interval + interval :=
  ⟨rfl, Nat.div_mul_le_self s interval, Nat.lt_div_mul_add h⟩

/-- Witness for C8 at `s = 7`, `interval = 3`. -/
theorem C8_checkpoint_bucket_witness :
    0 < 3 ∧ (checkpoint_bucket 7 3 = 7 / 3 * 3 ∧
      checkpoint_bucket 7 3 ≤ 7 ∧ 7 < checkpoint_bucket 7 3 + 3) :=
  ⟨by decide, C8_checkpoint_bucket 7 3 (by decide)⟩

/-- C6: the checkpoint record is merged in the order base run metadata,
agent info, controller info, environment info, with later mappings
overriding earlier ones, so a key present in all three auxiliary
mappings persists with the environment's value; moreover the container
written to disk holds exactly the previous runs plus this one merged
record under the sweep key. -/
theorem C6_merge_precedence {V : Type} (cache : SaveCache V)
    (params : V) (agent_info ctrl_info env_info : Dict V)
    (interval step : Nat) (fs : List (SavePath × Results V))
    (entry : SweepEntry V) (k : String) (va vc ve : V)
    (ha : dLookup agent_info k = some va)
    (hc : dLookup ctrl_info k = some vc)
    (he : dLookup env_info k = some ve)
    (hs : aLookup cache.data.experiment_data cache.hp_sweep = some entry) :
    dLookup (merged_run_data cache params agent_info ctrl_info env_info) k =
      some ve ∧
    aLookup (save_data cache params agent_info ctrl_info env_info interval
        step fs)
      ⟨cache.save_dir, checkpoint_bucket step interval, cache.env_name,
        cache.agent_name, cache.index⟩ =
      some (appendRun cache.data cache.hp_sweep
        (merged_run_data cache params agent_info ctrl_info env_info)) ∧
    aLookup (appendRun cache.data cache.hp_sweep
        (merged_run_data cache params agent_info ctrl_info env_info)).experiment_data
      cache.hp_sweep =
      some ⟨entry.runs ++
        [merged_run_data cache params agent_info ctrl_info env_info]⟩ ∧
    (∀ k' v', dLookup env_info k' = some v' →
      dLookup (merged_run_data cache params agent_info ctrl_info env_info) k' =
        some v') ∧
    (∀ k' v', dLookup env_info k' = none →
      dLookup ctrl_info k' = some v' →
      dLookup (merged_run_data cache params agent_info ctrl_info env_info) k' =
        some v') ∧
    (∀ k' v', dLookup env_info k' = none →
      dLookup ctrl_info k' = none →
      dLookup agent_info k' = some v' →
      dLookup (merged_run_data cache params agent_info ctrl_info env_info) k' =
        some v') := by
  refine ⟨dLookup_dMerge_right _ _ _ _ he, save_data_read _ _ _ _ _ _ _ _,
    ?_, ?_, ?_, ?_⟩
  · rw [appendRun_lookup, hs]
    simp
  · intro k' v' he'
    exact dLookup_dMerge_right _ _ _ _ he'
  · intro k' v' he' hc'
    unfold merged_run_data
    rw [dLookup_dMerge_left _ _ _ he']
    exact dLookup_dMerge_right _ _ _ _ hc'
  · intro k' v' he' hc' ha'
    unfold merged_run_data
    rw [dLookup_dMerge_left _ _ _ he', dLookup_dMerge_left _ _ _ hc']
    exact dLookup_dMerge_right _ _ _ _ ha'

/-- Witness for C6 on a one-key example: the key `"x"` carries values
`1`, `2`, `3` in agent, controller and environment info; the value `3`
survives. -/
theorem C6_merge_precedence_witness :
    dLookup (merged_run_data
      (⟨[], ⟨[("hp", ⟨[]⟩)]⟩, "hp", "dir", "env", "agent", 0⟩ : SaveCache Int)
      0 [("x", 1)] [("x", 2)] [("x", 3)]) "x" = some 3 :=
  (C6_merge_precedence
    (⟨[], ⟨[("hp", ⟨[]⟩)]⟩, "hp", "dir", "env", "agent", 0⟩ : SaveCache Int)
    0 [("x", 1)] [("x", 2)] [("x", 3)] 10 7 [] ⟨[]⟩ "x" 1 2 3
    rfl rfl rfl rfl).1

/-- C7: two `save_data` calls whose steps fall in the same checkpoint
bucket write the same file path, and the persisted run-record count for
the sweep key is `previous + 1` after each call — it does not grow on
the overwrite, because each call rebuilds the container from the cached
copy and appends exactly one record. -/
theorem C7_checkpoint_idempotence {V : Type} (cache : SaveCache V)
    (p1 p2 : V) (ai1 ci1 ei1 ai2 ci2 ei2 : Dict V)
    (interval s1 s2 : Nat) (fs : List (SavePath × Results V))
    (entry : SweepEntry V)
    (hb : checkpoint_bucket s1 interval = checkpoint_bucket s2 interval)
    (hs : aLookup cache.data.experiment_data cache.hp_sweep = some entry) :
    (⟨cache.save_dir, checkpoint_bucket s1 interval, cache.env_name,
        cache.agent_name, cache.index⟩ : SavePath) =
      ⟨cache.save_dir, checkpoint_bucket s2 interval, cache.env_name,
        cache.agent_name, cache.index⟩ ∧
    readRunCount (save_data cache p1 ai1 ci1 ei1 interval s1 fs)
      ⟨cache.save_dir, checkpoint_bucket s1 interval, cache.env_name,
        cache.agent_name, cache.index⟩ cache.hp_sweep =
      some (entry.runs.length + 1) ∧
    readRunCount
      (save_data cache p2 ai2 ci2 ei2 interval s2
        (save_data cache p1 ai1 ci1 ei1 interval s1 fs))
      ⟨cache.save_dir, checkpoint_bucket s1 interval, cache.env_name,
        cache.agent_name, cache.index⟩ cache.hp_sweep =
      some (entry.runs.length + 1) := by
  refine ⟨by rw [hb], ?_, ?_⟩
  · unfold readRunCount
    rw [save_data_read]
    simp only [Option.map_some']
    rw [runCount_appendRun _ _ _ entry hs]
  · unfold readRunCount
    rw [hb, save_data_read]
    simp only [Option.map_some']
    rw [runCount_appendRun _ _ _ entry hs]

/-- Witness for C7: saving twice at steps 7 and 8 (bucket 6 with
interval 3) leaves exactly one new run record. -/
theorem C7_checkpoint_idempotence_witness :
    checkpoint_bucket 7 3 = checkpoint_bucket 8 3 ∧
    readRunCount
      (save_data (⟨[], ⟨[("hp", ⟨[]⟩)]⟩, "hp", "dir", "env", "agent", 0⟩ :
          SaveCache Int) 1 [] [] [] 3 8
        (save_data (⟨[], ⟨[("hp", ⟨[]⟩)]⟩, "hp", "dir", "env", "agent", 0⟩ :
          SaveCache Int) 0 [] [] [] 3 7 []))
      ⟨"dir", checkpoint_bucket 7 3, "env", "agent", 0⟩ "hp" = some 1 :=
  ⟨by decide,
    (C7_checkpoint_idempotence
      (⟨[], ⟨[("hp", ⟨[]⟩)]⟩, "hp", "dir", "env", "agent", 0⟩ : SaveCache Int)
      0 1 [] [] [] [] [] [] 3 7 8 [] ⟨[]⟩ (by decide) rfl).2.2⟩

/-! ## Frame lemmas for the run controller -/

/-- `eval` mutates only evaluation-related state: the elapsed timestep
counter, the episode counter and every training-side sequence are left
untouched, while exactly one evaluation session is appended. -/
theorem evalAux_frame {E EE G S A : Type} (cfg : Config E EE G S A)
    (fuel : Nat) (st : RunState E EE G S) (o : EvalOut E EE G S)
    (h : evalAux cfg fuel st = some o) :
    o.st.timesteps_elapsed = st.timesteps_elapsed ∧
    o.st.train_episodes = st.train_episodes ∧
    o.st.train_ep_return = st.train_ep_return ∧
    o.st.train_ep_steps = st.train_ep_steps ∧
    o.st.timesteps_at_eval = st.timesteps_at_eval ∧
    o.st.last_save = st.last_save ∧
    o.st.eval_ep_return.length = st.eval_ep_return.length + 1 := by
  simp only [evalAux] at h
  split at h
  · exact Option.noConfusion h
  · split at h
    · split at h
      · exact Option.noConfusion h
      · cases h
        simp
    · cases h
      simp

theorem eval_frame {E EE G S A : Type} (cfg : Config E EE G S A)
    (fuel : Nat) (st : RunState E EE G S) (p : RunState E EE G S × Int)
    (h : eval cfg fuel st = some p) :
    p.1.timesteps_elapsed = st.timesteps_elapsed ∧
    p.1.train_episodes = st.train_episodes ∧
    p.1.train_ep_return = st.train_ep_return ∧
    p.1.train_ep_steps = st.train_ep_steps ∧
    p.1.timesteps_at_eval = st.timesteps_at_eval ∧
    p.1.last_save = st.last_save ∧
    p.1.eval_ep_return.length = st.eval_ep_return.length + 1 := by
  unfold eval at h
  cases ho : evalAux cfg fuel st with
  | none => rw [ho] at h; cases h
  | some o =>
      rw [ho] at h
      simp only [Option.map_some', Option.some.injEq] at h
      rw [← h]
      exact evalAux_frame cfg fuel st o ho

/-- Per-iteration accounting of the training-episode loop: training-side
sequences are untouched, the elapsed-timestep counter advances in
lockstep with the episode step counter (one per environment step), the
counter never passes the budget once below it, the accumulated return
equals the sum of the accumulated reward list, the evaluation-timestep
list only grows, and it grows in lockstep with the evaluation-session
list. -/
theorem train_loop_frame {E EE G S A : Type} (cfg : Config E EE G S A) :
    ∀ (fuel : Nat) (st : RunState E EE G S) (state : S) (action : A)
      (d : Bool) (ret : Int) (steps : Nat) (rewards : List Int)
      (o : LoopOut E EE G S),
      train_loop cfg fuel st state action d ret steps rewards = some o →
      o.st.train_episodes = st.train_episodes ∧
      o.st.train_ep_return = st.train_ep_return ∧
      o.st.train_ep_steps = st.train_ep_steps ∧
      o.st.last_save = st.last_save ∧
      o.st.timesteps_elapsed + steps = st.timesteps_elapsed + o.steps ∧
      steps ≤ o.steps ∧
      (d = true → o.st.timesteps_elapsed = st.timesteps_elapsed) ∧
      (d = false → st.timesteps_elapsed < cfg.total_timesteps →
        o.st.timesteps_elapsed ≤ cfg.total_timesteps) ∧
      (ret = rewards.sum → steps = rewards.length →
        o.ret = o.rewards.sum ∧ o.steps = o.rewards.length) ∧
      (∃ l, o.st.timesteps_at_eval = st.timesteps_at_eval ++ l) ∧
      o.st.eval_ep_return.length + st.timesteps_at_eval.length =
        st.eval_ep_return.length + o.st.timesteps_at_eval.length := by
  intro fuel
  induction fuel with
  | zero =>
      intro st state action d ret steps rewards o h
      exact Option.noConfusion h
  | succ fuel ih =>
      intro st state action d ret steps rewards o h
      simp only [train_loop] at h
      split at h
      · -- `done` is true: the loop exits immediately
        rename_i hd
        cases h
        refine ⟨rfl, rfl, rfl, rfl, rfl, Nat.le_refl _, fun _ => rfl,
          ?_, fun h1 h2 => ⟨h1, h2⟩, ⟨[], (List.append_nil _).symm⟩, rfl⟩
        intro hf
        rw [hf] at hd
        exact Bool.noConfusion hd
      · rename_i hd
        split at h
        · exact Option.noConfusion h
        · rename_i st1 hmid
          -- frame facts about the state after the optional mid-episode
          -- evaluation
          have hfacts : st1.train_episodes = st.train_episodes ∧
              st1.train_ep_return = st.train_ep_return ∧
              st1.train_ep_steps = st.train_ep_steps ∧
              st1.last_save = st.last_save ∧
              st1.timesteps_elapsed = st.timesteps_elapsed ∧
              (∃ l, st1.timesteps_at_eval = st.timesteps_at_eval ++ l) ∧
              st1.eval_ep_return.length + st.timesteps_at_eval.length =
                st.eval_ep_return.length + st1.timesteps_at_eval.length := by
            split at hmid
            · split at hmid
              · exact Option.noConfusion hmid
              · rename_i p hev
                cases hmid
                obtain ⟨f1, f2, f3, f4, f5, f6, f7⟩ :=
                  eval_frame cfg fuel st p hev
                refine ⟨by simp [afterEval, f2], by simp [afterEval, f3],
                  by simp [afterEval, f4], by simp [afterEval, f6],
                  by simp [afterEval, f1], ⟨[p.1.timesteps_elapsed],
                    by simp [afterEval, f5]⟩, ?_⟩
                simp [afterEval, f5, f7]
                omega
            · cases hmid
              exact ⟨rfl, rfl, rfl, rfl, rfl,
                ⟨[], (List.append_nil _).symm⟩, rfl⟩
          obtain ⟨g1, g2, g3, g4, g5, ⟨l1, g6⟩, g7⟩ := hfacts
          split at h
          · -- budget reached: the loop returns right after this step
            rename_i hb
            cases h
            refine ⟨by simpa using g1, by simpa using g2, by simpa using g3,
              by simpa using g4, by simp; omega, Nat.le_succ steps,
              ?_, ?_, ?_, ⟨l1, by simpa using g6⟩, by simpa using g7⟩
            · intro hf
              rw [hf] at hd
              exact absurd rfl hd
            · intro _ hlt
              simp
              omega
            · intro h1 h2
              constructor
              · simp [h1, List.sum_append]
              · simp [h2]
          · -- the loop continues
            rename_i hb
            obtain ⟨i1, i2, i3, i4, i5, i6, i7, i8, i9, ⟨l2, i10⟩, i11⟩ :=
              ih _ _ _ _ _ _ _ _ h
            simp only at i1 i2 i3 i4 i5 i6 i7 i8 i9 i10 i11
            refine ⟨by rw [i1, g1], by rw [i2, g2], by rw [i3, g3],
              by rw [i4, g4], by omega, by omega, ?_, ?_, ?_,
              ⟨l1 ++ l2, by rw [i10, g6, List.append_assoc]⟩, ?_⟩
            · intro hf
              rw [hf] at hd
              exact absurd rfl hd
            · intro _ hlt
              have hb' : ¬ cfg.total_timesteps ≤ st1.timesteps_elapsed + 1 := hb
              cases hrd : (cfg.env.step st1.envSt action).2.done with
              | true =>
                  rw [hrd] at i7
                  have := i7 rfl
                  omega
              | false =>
                  rw [hrd] at i8
                  have := i8 rfl (by omega)
                  omega
            · intro h1 h2
              refine i9 ?_ ?_
              · simp [h1, List.sum_append]
              · simp [h2]
            · omega

/-- `save_mark` changes `last_save` only. -/
theorem save_mark_fields {E EE G S : Type} (k : Nat)
    (st : RunState E EE G S) :
    (save_mark k st).timesteps_elapsed = st.timesteps_elapsed ∧
    (save_mark k st).train_episodes = st.train_episodes ∧
    (save_mark k st).train_ep_return = st.train_ep_return ∧
    (save_mark k st).timesteps_at_eval = st.timesteps_at_eval ∧
    (save_mark k st).eval_ep_return = st.eval_ep_return := by
  unfold save_mark
  split
  · exact ⟨rfl, rfl, rfl, rfl, rfl⟩
  · exact ⟨rfl, rfl, rfl, rfl, rfl⟩

/-- Accounting for one full training episode: the episode counter
advances by exactly one, the elapsed-timestep counter advances by
exactly the episode's step count and cannot pass the budget, the
reported return is the sum of the per-step rewards and the reported step
count their number, and the evaluation bookkeeping only grows, in
lockstep. -/
theorem run_episode_train_frame {E EE G S A : Type}
    (cfg : Config E EE G S A) (fuel : Nat) (st : RunState E EE G S)
    (o : EpOut E EE G S) (h : run_episode_train cfg fuel st = some o) :
    o.st.train_episodes = st.train_episodes + 1 ∧
    o.st.train_ep_return = st.train_ep_return ∧
    o.st.train_ep_steps = st.train_ep_steps ∧
    o.st.last_save = st.last_save ∧
    o.st.timesteps_elapsed = st.timesteps_elapsed + o.episode_steps ∧
    (st.timesteps_elapsed < cfg.total_timesteps →
      o.st.timesteps_elapsed ≤ cfg.total_timesteps) ∧
    o.episode_return = o.rewards.sum ∧
    o.episode_steps = o.rewards.length ∧
    (∃ l, o.st.timesteps_at_eval = st.timesteps_at_eval ++ l) ∧
    o.st.eval_ep_return.length + st.timesteps_at_eval.length =
      st.eval_ep_return.length + o.st.timesteps_at_eval.length := by
  simp only [run_episode_train] at h
  split at h
  · exact Option.noConfusion h
  · rename_i o1 hl
    cases h
    obtain ⟨t1, t2, t3, t4, t5, t6, t7, t8, t9, ⟨l1, t10⟩, t11⟩ :=
      train_loop_frame cfg fuel _ _ _ _ _ _ _ _ hl
    simp only at t1 t2 t3 t4 t5 t6 t7 t8 t9 t10 t11
    obtain ⟨s1, s2⟩ := t9 rfl rfl
    refine ⟨by simpa using t1, by simpa using t2, by simpa using t3,
      by simpa using t4, by simp; omega, ?_, by simpa using s1,
      by simpa using s2, ⟨l1, by simpa using t10⟩, by simpa using t11⟩
    intro hlt
    have := t8 (by simp) (by simpa using hlt)
    simpa using this

/-- Accounting for the training loop of `run`: when it returns, the
loop condition has just failed; the elapsed-timestep counter is
non-decreasing and stays within the budget; the per-episode return list
stays in lockstep with the episode counter; a positive episode cap is
never overshot; and the evaluation bookkeeping only grows, in
lockstep. -/
theorem run_loop_props {E EE G S A : Type} (rc : RunConfig E EE G S A) :
    ∀ (fuel : Nat) (st st' : RunState E EE G S),
      run_loop rc fuel st = some st' →
      ¬ (st'.timesteps_elapsed < rc.cfg.total_timesteps ∧
        (0 < rc.max_episodes →
          (st'.train_episodes : Int) < rc.max_episodes)) ∧
      st.timesteps_elapsed ≤ st'.timesteps_elapsed ∧
      (st.timesteps_elapsed ≤ rc.cfg.total_timesteps →
        st'.timesteps_elapsed ≤ rc.cfg.total_timesteps) ∧
      (st.train_ep_return.length = st.train_episodes →
        st'.train_ep_return.length = st'.train_episodes) ∧
      (0 < rc.max_episodes → (st.train_episodes : Int) ≤ rc.max_episodes →
        (st'.train_episodes : Int) ≤ rc.max_episodes) ∧
      st.train_episodes ≤ st'.train_episodes ∧
      (∃ l, st'.timesteps_at_eval = st.timesteps_at_eval ++ l) ∧
      st'.eval_ep_return.length + st.timesteps_at_eval.length =
        st.eval_ep_return.length + st'.timesteps_at_eval.length := by
  intro fuel
  induction fuel with
  | zero =>
      intro st st' h
      exact Option.noConfusion h
  | succ fuel ih =>
      intro st st' h
      simp only [run_loop] at h
      split at h
      · rename_i hcond
        split at h
        · exact Option.noConfusion h
        · rename_i o hep
          obtain ⟨e1, e2, e3, e4, e5, e6, e7, e8, ⟨l1, e9⟩, e10⟩ :=
            run_episode_train_frame rc.cfg fuel st o hep
          obtain ⟨m1, m2, m3, m4, m5⟩ := save_mark_fields rc.steps_to_save
            ({ o.st with
                train_ep_return := o.st.train_ep_return ++ [o.episode_return],
                train_ep_steps := o.st.train_ep_steps ++ [o.episode_steps],
                train_time := o.st.train_time + o.ep_time })
          obtain ⟨i1, i2, i3, i4, i5, i6, ⟨l2, i7⟩, i8⟩ := ih _ _ h
          simp only at m1 m2 m3 m4 m5
          refine ⟨i1, ?_, ?_, ?_, ?_, ?_, ?_, ?_⟩
          · rw [m1, e5] at i2
            omega
          · intro hb
            refine i3 ?_
            rw [m1, e5]
            rcases Nat.lt_or_ge st.timesteps_elapsed rc.cfg.total_timesteps
              with hlt | hge
            · have := e6 hlt
              omega
            · -- the loop condition required elapsed < total
              exact absurd hcond.1 (Nat.not_lt.mpr hge)
          · intro hlen
            refine i4 ?_
            rw [m3, m2, e1, e2]
            simp [hlen]
          · intro hpos hle
            refine i5 hpos ?_
            rw [m2, e1]
            have := hcond.2 hpos
            push_cast
            omega
          · rw [m2, e1] at i6
            omega
          · refine ⟨l1 ++ l2, ?_⟩
            rw [i7, m4, e9, List.append_assoc]
          · rw [m4, m5] at i8
            omega
      · rename_i hcond
        cases h
        exact ⟨hcond, Nat.le_refl _, fun hb => hb, fun hl => hl,
          fun _ hle => hle, Nat.le_refl _, ⟨[], (List.append_nil _).symm⟩,
          rfl⟩

/-- `run` decomposes into: clock read, initial bookend evaluation with
its timestep append, training loop, final bookend evaluation with its
timestep append, clock read. -/
theorem run_elim {E EE G S A : Type} (rc : RunConfig E EE G S A)
    (fuel : Nat) (st0 st' : RunState E EE G S)
    (h : run rc fuel st0 = some st') :
    ∃ (p1 : RunState E EE G S × Int) (stMid : RunState E EE G S)
      (p2 : RunState E EE G S × Int),
      eval rc.cfg fuel { st0 with clockIdx := st0.clockIdx + 1 } = some p1 ∧
      run_loop rc fuel (afterEval p1.1 p1.2) = some stMid ∧
      eval rc.cfg fuel stMid = some p2 ∧
      st' = { afterEval p2.1 p2.2 with
        clockIdx := (afterEval p2.1 p2.2).clockIdx + 1 } := by
  simp only [run, readTime] at h
  split at h
  · exact Option.noConfusion h
  · rename_i p1 h1
    split at h
    · exact Option.noConfusion h
    · rename_i stMid h2
      split at h
      · exact Option.noConfusion h
      · rename_i p2 h3
        cases h
        exact ⟨p1, stMid, p2, h1, h2, h3, rfl⟩

/-! ## Claim theorems: the run controller -/

/-- C2: every completed run with a positive timestep budget performs at
least two evaluations — the number of evaluation sessions recorded in
`eval_ep_return` is at least two and equals the number of recorded
evaluation timesteps — and the evaluation-timestep sequence starts with
the elapsed count at the initial bookend (0) and ends with the final
elapsed count recorded by the closing bookend. -/
theorem C2_bookend_evaluations {E EE G S A : Type}
    (rc : RunConfig E EE G S A) (fuel : Nat) (e0 : E) (ee0 : EE) (g0 : G)
    (st' : RunState E EE G S)
    (hpos : 0 < rc.cfg.total_timesteps)
    (h : run rc fuel (initState e0 ee0 g0) = some st') :
    2 ≤ st'.eval_ep_return.length ∧
    (∃ mids, st'.timesteps_at_eval =
      0 :: (mids ++ [st'.timesteps_elapsed])) ∧
    st'.eval_ep_return.length = st'.timesteps_at_eval.length := by
  obtain ⟨p1, stMid, p2, h1, h2, h3, h4⟩ := run_elim rc fuel _ st' h
  obtain ⟨a1, a2, a3, a4, a5, a6, a7⟩ := eval_frame rc.cfg fuel _ p1 h1
  simp only [initState] at a1 a2 a3 a4 a5 a6 a7
  obtain ⟨-, r2, r3, r4, r5, r6, ⟨l, r7⟩, r8⟩ := run_loop_props rc fuel _ _ h2
  obtain ⟨b1, b2, b3, b4, b5, b6, b7⟩ := eval_frame rc.cfg fuel _ p2 h3
  have hafter1 : (afterEval p1.1 p1.2).timesteps_at_eval =
      [0] ∧ (afterEval p1.1 p1.2).eval_ep_return.length = 1 ∧
      (afterEval p1.1 p1.2).timesteps_elapsed = 0 := by
    simp [afterEval, a1, a5, a7]
  obtain ⟨w1, w2, w3⟩ := hafter1
  have hfin : st'.timesteps_at_eval =
      stMid.timesteps_at_eval ++ [stMid.timesteps_elapsed] ∧
      st'.eval_ep_return.length = stMid.eval_ep_return.length + 1 ∧
      st'.timesteps_elapsed = stMid.timesteps_elapsed := by
    rw [h4]
    simp [afterEval, b1, b5, b7]
  obtain ⟨v1, v2, v3⟩ := hfin
  have hlen1 : (afterEval p1.1 p1.2).timesteps_at_eval.length = 1 := by
    rw [w1]
    rfl
  have hmidlen : stMid.timesteps_at_eval.length = 1 + l.length := by
    rw [r7, w1]
    simp
    omega
  have hmideq : stMid.eval_ep_return.length =
      stMid.timesteps_at_eval.length := by
    omega
  have hstlen : st'.timesteps_at_eval.length =
      stMid.timesteps_at_eval.length + 1 := by
    rw [v1]
    simp
  refine ⟨by omega, ⟨l, ?_⟩, by omega⟩
  rw [v1, r7, w1, v3]
  simp

/-- C3: for a completed run whose timestep budget never binds, a
positive episode cap stops the training loop after exactly
`max_episodes` completed episodes; a non-positive cap never stops the
loop, which then exits only by exhausting the timestep budget; and the
cap is consulted only between episodes — the outcome of a training
episode does not depend on `max_episodes` at all. -/
theorem C3_episode_cap {E EE G S A : Type} (rc : RunConfig E EE G S A)
    (fuel : Nat) (e0 : E) (ee0 : EE) (g0 : G) (st' : RunState E EE G S)
    (h : run rc fuel (initState e0 ee0 g0) = some st') :
    (0 < rc.max_episodes →
      st'.timesteps_elapsed < rc.cfg.total_timesteps →
      (st'.train_episodes : Int) = rc.max_episodes) ∧
    (rc.max_episodes ≤ 0 →
      rc.cfg.total_timesteps ≤ st'.timesteps_elapsed) ∧
    (∀ (m : Int) (fuel' : Nat) (st : RunState E EE G S),
      run_episode_train ({ rc with max_episodes := m }).cfg fuel' st =
        run_episode_train rc.cfg fuel' st) := by
  obtain ⟨p1, stMid, p2, h1, h2, h3, h4⟩ := run_elim rc fuel _ st' h
  obtain ⟨a1, a2, a3, a4, a5, a6, a7⟩ := eval_frame rc.cfg fuel _ p1 h1
  simp only [initState] at a1 a2
  obtain ⟨hexit, -, -, -, r5, -, -, -⟩ := run_loop_props rc fuel _ _ h2
  obtain ⟨b1, b2, -, -, -, -, -⟩ := eval_frame rc.cfg fuel _ p2 h3
  have hst' : st'.timesteps_elapsed = stMid.timesteps_elapsed ∧
      st'.train_episodes = stMid.train_episodes := by
    rw [h4]
    simp [afterEval, b1, b2]
  obtain ⟨v1, v2⟩ := hst'
  have hstart : (afterEval p1.1 p1.2).train_episodes = 0 := by
    simp [afterEval, a2]
  refine ⟨?_, ?_, fun m fuel' st => rfl⟩
  · intro hpos hlt
    rw [v1] at hlt
    rw [v2]
    have hge : ¬ ((stMid.train_episodes : Int) < rc.max_episodes) := by
      intro hcontra
      exact hexit ⟨hlt, fun _ => hcontra⟩
    have hle : (stMid.train_episodes : Int) ≤ rc.max_episodes := by
      refine r5 hpos ?_
      rw [hstart]
      push_cast
      omega
    omega
  · intro hnp
    rw [v1]
    by_contra hcontra
    exact hexit ⟨Nat.lt_of_not_le hcontra, fun hp => absurd hnp (by omega)⟩

/-- C4: a training episode entered with budget remaining advances the
elapsed counter by exactly its step count and never past the budget
(the loop breaks right after the exhausting step), reports exactly the
partially accumulated return (the sum of the rewards seen) and step
count (their number), and once the budget is exhausted the training
loop of `run` performs no further training-environment steps: it
returns its state unchanged. -/
theorem C4_mid_episode_budget {E EE G S A : Type}
    (cfg : Config E EE G S A) (fuel : Nat) (st : RunState E EE G S)
    (o : EpOut E EE G S)
    (hlt : st.timesteps_elapsed < cfg.total_timesteps)
    (h : run_episode_train cfg fuel st = some o) :
    o.st.timesteps_elapsed = st.timesteps_elapsed + o.episode_steps ∧
    o.st.timesteps_elapsed ≤ cfg.total_timesteps ∧
    o.episode_return = o.rewards.sum ∧
    o.episode_steps = o.rewards.length ∧
    (∀ (rc : RunConfig E EE G S A) (fuel' : Nat)
      (st2 : RunState E EE G S),
      rc.cfg.total_timesteps ≤ st2.timesteps_elapsed →
      run_loop rc (fuel' + 1) st2 = some st2) := by
  obtain ⟨e1, e2, e3, e4, e5, e6, e7, e8, e9, e10⟩ :=
    run_episode_train_frame cfg fuel st o h
  refine ⟨e5, e6 hlt, e7, e8, ?_⟩
  intro rc fuel' st2 hge
  simp only [run_loop]
  rw [if_neg]
  intro hcontra
  exact absurd hcontra.1 (Nat.not_lt.mpr hge)

/-- C9: for a completed run the elapsed timestep count never exceeds
the configured budget and the training-return sequence has exactly one
entry per elapsed training episode; moreover every transition of the
controller moves the elapsed count monotonically — evaluation leaves it
unchanged, a training episode only increases it, and so does the
training loop. -/
theorem C9_run_invariants {E EE G S A : Type} (rc : RunConfig E EE G S A)
    (fuel : Nat) (e0 : E) (ee0 : EE) (g0 : G) (st' : RunState E EE G S)
    (h : run rc fuel (initState e0 ee0 g0) = some st') :
    st'.timesteps_elapsed ≤ rc.cfg.total_timesteps ∧
    st'.train_ep_return.length = st'.train_episodes ∧
    (∀ (fuel' : Nat) (st : RunState E EE G S)
      (p : RunState E EE G S × Int),
      eval rc.cfg fuel' st = some p →
      p.1.timesteps_elapsed = st.timesteps_elapsed) ∧
    (∀ (fuel' : Nat) (st : RunState E EE G S) (o : EpOut E EE G S),
      run_episode_train rc.cfg fuel' st = some o →
      st.timesteps_elapsed ≤ o.st.timesteps_elapsed) ∧
    (∀ (fuel' : Nat) (st st2 : RunState E EE G S),
      run_loop rc fuel' st = some st2 →
      st.timesteps_elapsed ≤ st2.timesteps_elapsed) := by
  obtain ⟨p1, stMid, p2, h1, h2, h3, h4⟩ := run_elim rc fuel _ st' h
  obtain ⟨a1, a2, a3, a4, a5, a6, a7⟩ := eval_frame rc.cfg fuel _ p1 h1
  simp only [initState] at a1 a2 a3 a4
  obtain ⟨-, -, r3, r4, -, -, -, -⟩ := run_loop_props rc fuel _ _ h2
  obtain ⟨b1, b2, b3, b4, -, -, -⟩ := eval_frame rc.cfg fuel _ p2 h3
  have hst' : st'.timesteps_elapsed = stMid.timesteps_elapsed ∧
      st'.train_episodes = stMid.train_episodes ∧
      st'.train_ep_return = stMid.train_ep_return := by
    rw [h4]
    simp [afterEval, b1, b2, b3]
  obtain ⟨v1, v2, v3⟩ := hst'
  refine ⟨?_, ?_, ?_, ?_, ?_⟩
  · rw [v1]
    refine r3 ?_
    simp [afterEval, a1]
  · rw [v2, v3]
    refine r4 ?_
    simp [afterEval, a2, a3]
  · intro fuel' st p hev
    exact (eval_frame rc.cfg fuel' st p hev).1
  · intro fuel' st o hep
    have := (run_episode_train_frame rc.cfg fuel' st o hep).2.2.2.2.1
    omega
  · intro fuel' st st2 hloop
    exact (run_loop_props rc fuel' st st2 hloop).2.1

/-- C5 (amended): `eval` returns only the episode-based
`eval_session_time`; the state-collection pass time is added to the
cumulative `eval_time` (together with the session time) but is *not*
part of the return value, and it is zero when the agent does not
advertise `eval_steps`. -/
theorem C5_eval_return_value {E EE G S A : Type}
    (cfg : Config E EE G S A) (fuel : Nat) (st : RunState E EE G S)
    (o : EvalOut E EE G S) (h : evalAux cfg fuel st = some o) :
    eval cfg fuel st = some (o.st, o.session) ∧
    o.st.eval_time = st.eval_time + o.passTime + o.session ∧
    (cfg.agent.eval_steps = none → o.passTime = 0) := by
  have hret : eval cfg fuel st = some (o.st, o.session) := by
    unfold eval
    rw [h]
    rfl
  refine ⟨hret, ?_, ?_⟩
  · simp only [evalAux] at h
    split at h
    · exact Option.noConfusion h
    · split at h
      · split at h
        · exact Option.noConfusion h
        · cases h
          simp
      · cases h
        simp
  · simp only [evalAux] at h
    split at h
    · exact Option.noConfusion h
    · split at h
      · rename_i n hsome
        intro hnone
        rw [hnone] at hsome
        exact Option.noConfusion hsome
      · cases h
        intro _
        rfl

/-- Every buffer the state-collection pass's inner loop appends to the
`eval_state` list has exactly `n` entries. -/
theorem collect_inner_recorded {E EE G S A : Type}
    (cfg : Config E EE G S A) (n : Nat) :
    ∀ (fuel : Nat) (ee : EE) (g : G) (a : A) (cur : Nat) (buf : List S)
      (recs : List (List S)) (o : PassAcc EE G S),
      collect_inner cfg n fuel ee g a cur buf recs = some o →
      ∀ b ∈ o.recorded, b ∈ recs ∨ b.length = n := by
  intro fuel
  induction fuel with
  | zero =>
      intro ee g a cur buf recs o h
      exact Option.noConfusion h
  | succ fuel ih =>
      intro ee g a cur buf recs o h
      simp only [collect_inner] at h
      split at h
      · split at h
        · -- the environment reported `done`: the inner loop exits
          split at h
          · -- this step filled the buffer to exactly `n`: it is recorded
            rename_i hlen
            cases h
            intro b hb
            simp only [List.mem_append, List.mem_singleton] at hb
            rcases hb with hb | hb
            · exact Or.inl hb
            · subst hb
              exact Or.inr hlen
          · cases h
            intro b hb
            exact Or.inl hb
        · -- the inner loop continues
          split at h
          · rename_i hlen
            intro b hb
            rcases ih _ _ _ _ _ _ _ h b hb with hb' | hb'
            · rcases List.mem_append.mp hb' with h1 | h1
              · exact Or.inl h1
              · simp only [List.mem_singleton] at h1
                subst h1
                exact Or.inr hlen
            · exact Or.inr hb'
          · intro b hb
            rcases ih _ _ _ _ _ _ _ h b hb with hb' | hb'
            · exact Or.inl hb'
            · exact Or.inr hb'
      · cases h
        intro b hb
        exact Or.inl hb

/-- Every buffer the state-collection pass appends to the `eval_state`
list has exactly `n` entries. -/
theorem collect_outer_recorded {E EE G S A : Type}
    (cfg : Config E EE G S A) (n : Nat) :
    ∀ (fuel : Nat) (ee : EE) (g : G) (cur : Nat) (buf : List S)
      (recs : List (List S)) (o : PassAcc EE G S),
      collect_outer cfg n fuel ee g cur buf recs = some o →
      ∀ b ∈ o.recorded, b ∈ recs ∨ b.length = n := by
  intro fuel
  induction fuel with
  | zero =>
      intro ee g cur buf recs o h
      exact Option.noConfusion h
  | succ fuel ih =>
      intro ee g cur buf recs o h
      simp only [collect_outer] at h
      split at h
      · split at h
        · exact Option.noConfusion h
        · rename_i o1 hin
          intro b hb
          rcases ih _ _ _ _ _ _ h b hb with hb' | hb'
          · exact collect_inner_recorded cfg n fuel _ _ _ _ _ _ _ hin b hb'
          · exact Or.inr hb'
      · cases h
        intro b hb
        exact Or.inl hb

/-- C10: when the agent advertises an `eval_steps` budget `n`, every
state buffer the evaluation's state-collection pass appends to the
agent's `eval_state` list contains exactly `n` states: any buffer
found afterwards was either already present before the call or has
length exactly `n`. -/
theorem C10_eval_state_buffers {E EE G S A : Type}
    (cfg : Config E EE G S A) (fuel : Nat) (st : RunState E EE G S)
    (o : EvalOut E EE G S) (n : Nat)
    (hn : cfg.agent.eval_steps = some n)
    (h : evalAux cfg fuel st = some o) :
    ∀ b ∈ o.st.agent_eval_state,
      b ∈ st.agent_eval_state ∨ b.length = n := by
  simp only [evalAux] at h
  split at h
  · exact Option.noConfusion h
  · split at h
    · rename_i n' hsome
      split at h
      · exact Option.noConfusion h
      · rename_i po hpass
        cases h
        have hn' : n' = n := by
          rw [hn] at hsome
          cases hsome
          rfl
        subst hn'
        simp only [eval_state_pass, readTime] at hpass
        split at hpass
        · exact Option.noConfusion hpass
        · rename_i oc hout
          cases hpass
          intro b hb
          exact collect_outer_recorded cfg n' fuel _ _ _ _ _ _ hout b hb
    · rename_i hnone
      rw [hn] at hnone
      exact Option.noConfusion hnone

/-! ## Witnesses and the C5 counterexample -/

/-- Witness for C2 on a concrete completed run: two evaluation sessions
are recorded, matching the two recorded evaluation timesteps. -/
theorem C2_bookend_evaluations_witness :
    0 < unitRunConfig.cfg.total_timesteps ∧
    2 ≤ unitRunFinal.eval_ep_return.length ∧
    unitRunFinal.eval_ep_return.length =
      unitRunFinal.timesteps_at_eval.length := by
  have h := C2_bookend_evaluations unitRunConfig 20 0 0 () unitRunFinal
    (by decide) rfl
  exact ⟨by decide, h.1, h.2.2⟩

/-- Witness for C3: with cap 2 and budget 1000 the run stops after
exactly 2 episodes. -/
theorem C3_episode_cap_witness :
    0 < capRunConfig.max_episodes ∧
    capRunFinal.timesteps_elapsed < capRunConfig.cfg.total_timesteps ∧
    (capRunFinal.train_episodes : Int) = capRunConfig.max_episodes := by
  have h := C3_episode_cap capRunConfig 20 0 0 () capRunFinal rfl
  exact ⟨by decide, by decide, h.1 (by decide) (by decide)⟩

/-- Witness for C4 on a concrete training episode. -/
theorem C4_mid_episode_budget_witness :
    (initState 0 0 () : RunState Nat Nat Unit Unit).timesteps_elapsed <
      unitConfig.total_timesteps ∧
    unitEpOut.st.timesteps_elapsed =
      (initState 0 0 () : RunState Nat Nat Unit Unit).timesteps_elapsed +
        unitEpOut.episode_steps ∧
    unitEpOut.st.timesteps_elapsed ≤ unitConfig.total_timesteps ∧
    unitEpOut.episode_return = unitEpOut.rewards.sum ∧
    unitEpOut.episode_steps = unitEpOut.rewards.length := by
  have h := C4_mid_episode_budget unitConfig 20 (initState 0 0 ())
    unitEpOut (by decide) rfl
  exact ⟨by decide, h.1, h.2.1, h.2.2.1, h.2.2.2.1⟩

/-- Witness for C9 on a concrete completed run. -/
theorem C9_run_invariants_witness :
    unitRunFinal.timesteps_elapsed ≤ unitRunConfig.cfg.total_timesteps ∧
    unitRunFinal.train_ep_return.length = unitRunFinal.train_episodes := by
  have h := C9_run_invariants unitRunConfig 20 0 0 () unitRunFinal rfl
  exact ⟨h.1, h.2.1⟩

/-- Counterexample to C5 as claimed: on `passConfig` the state-collection
pass runs (the agent advertises `eval_steps = 2`), the episode-based
session time is 1 and the pass time is 1 (total invocation wall time 2,
reflected in `eval_time`), yet `eval` returns 1 — not the claimed
session-plus-pass total. -/
theorem C5_counterexample :
    evalAux passConfig 20 (initState 0 0 ()) = some passEvalOut ∧
    passAgent.eval_steps = some 2 ∧
    passEvalOut.session = 1 ∧
    passEvalOut.passTime = 1 ∧
    passEvalOut.st.eval_time =
      (initState 0 0 () : RunState Nat Nat Unit Unit).eval_time + 2 ∧
    eval passConfig 20 (initState 0 0 ()) = some (passEvalOut.st, 1) ∧
    (1 : Int) ≠ passEvalOut.session + passEvalOut.passTime :=
  ⟨rfl, rfl, rfl, rfl, rfl, rfl, by decide⟩

/-- Witness for the amended C5 on a concrete input. -/
theorem C5_eval_return_value_witness :
    eval passConfig 20 (initState 0 0 ()) =
      some (passEvalOut.st, passEvalOut.session) ∧
    passEvalOut.st.eval_time =
      (initState 0 0 () : RunState Nat Nat Unit Unit).eval_time +
        passEvalOut.passTime + passEvalOut.session := by
  have h := C5_eval_return_value passConfig 20 (initState 0 0 ())
    passEvalOut rfl
  exact ⟨h.1, h.2.1⟩

/-- Witness for C10: on `passConfig` the pass records the buffer
`[(), ()]`, which indeed has length `eval_steps = 2`. -/
theorem C10_eval_state_buffers_witness :
    passConfig.agent.eval_steps = some 2 ∧
    (([(), ()] : List Unit) ∈
        (initState 0 0 () : RunState Nat Nat Unit Unit).agent_eval_state ∨
      ([(), ()] : List Unit).length = 2) := by
  have h := C10_eval_state_buffers passConfig 20 (initState 0 0 ())
    passEvalOut 2 rfl rfl
  exact ⟨rfl, h [(), ()] (by decide)⟩

end PolicyParams
